import Mathlib

/-!
Shallow embedding of the streak/credit ledger engine of the `momentum`
habit-tracking application.

Calendar days are modelled as integers (one unit = one calendar day, already
normalized to UTC midnight, so `toUTCMidnight` is the identity and `yesterday`
is `today - 1`).  All persisted state for a single habit is gathered in
`Momentum.State`: the `Habit` row and the list of its `HabitCompletion` rows.
Authentication, ownership checks and JSON plumbing are outside the core and
are not modelled; display-only milestone fields (emoji, description) are
dropped from `MilestoneConfig`.

Sources embedded:
  * `src/types/diorama.ts` — `MILESTONES`, `MILESTONE_CONFIGS`,
    `checkMilestoneReached`, `getMilestonesReached`;
  * `src/app/api/habits/[id]/complete/route.ts` — `POST` (complete / skip)
    and `DELETE` (undo);
  * the backfill route — `POST` (backfill add) and `DELETE` (backfill
    remove), both ending in the shared 365-day streak recomputation loop;
  * the recalculate route — `POST`;
  * `src/lib/streak-checker.ts` — `checkAndResetStreakIfNeeded`,
    `checkAndResetAllStreaks`.
-/

namespace Momentum

/-- One milestone entry of `MILESTONE_CONFIGS` (display-only `emoji` and
`description` fields omitted). -/
structure MilestoneConfig where
  day : Nat
  name : String
  bonusCredits : Nat
deriving Repr, DecidableEq

/-- `export const MILESTONES = [7, 14, 30, 50, 100, 150, 200]`. -/
def MILESTONES : List Nat := [7, 14, 30, 50, 100, 150, 200]

/-- The record `MILESTONE_CONFIGS`, as a function from the milestone day
(it is only ever applied to members of `MILESTONES`). -/
def MILESTONE_CONFIGS : Nat → MilestoneConfig
  | 7 => ⟨7, "First Week", 1⟩
  | 14 => ⟨14, "Two Weeks", 1⟩
  | 30 => ⟨30, "One Month", 2⟩
  | 50 => ⟨50, "Fifty Days", 2⟩
  | 100 => ⟨100, "Century Club", 5⟩
  | 150 => ⟨150, "Master", 5⟩
  | _ => ⟨200, "Transcendent", 10⟩

/-- `checkMilestoneReached(newStreak)`: the milestone config if `newStreak`
is exactly a milestone day, else `null`. -/
def checkMilestoneReached (newStreak : Nat) : Option MilestoneConfig :=
  if MILESTONES.contains newStreak then some (MILESTONE_CONFIGS newStreak)
  else none

/-- `getMilestonesReached(streak)`: all milestones with `day <= streak`. -/
def getMilestonesReached (streak : Nat) : List MilestoneConfig :=
  (MILESTONES.filter (fun day => day ≤ streak)).map MILESTONE_CONFIGS

/-- `milestonesReached.reduce((sum, m) => sum + m.bonusCredits, 0)` — the
credit total the recalculation paths derive from a streak. -/
def creditsFromMilestones (streak : Nat) : Nat :=
  (getMilestonesReached streak).foldl (fun sum m => sum + m.bonusCredits) 0

/-- One `HabitCompletion` row of a fixed habit: its UTC-midnight calendar
day and the `skipped` flag (`true` = credit-funded skip). -/
structure Completion where
  date : Int
  skipped : Bool
deriving Repr, DecidableEq

/-- The core fields of a `Habit` row (name/icon/color are opaque to the
core and omitted). -/
structure Habit where
  currentStreak : Nat
  longestStreak : Nat
  currentCredits : Nat
  lastCompletedAt : Option Int
  completionCount : Nat
  isArchived : Bool
deriving Repr, DecidableEq

/-- Persisted state for one habit: the `Habit` row plus its
`HabitCompletion` rows. -/
structure State where
  habit : Habit
  store : List Completion
deriving Repr, DecidableEq

/-- `prisma.habitCompletion.findUnique` on the `(habitId, date)` key. -/
def findCompletion (store : List Completion) (d : Int) : Option Completion :=
  store.find? (fun c => c.date == d)

/-- `allCompletions.some((c) => toUTCMidnight(c.date).getTime() === checkDate.getTime())`. -/
def hasCompletionOn (store : List Completion) (d : Int) : Bool :=
  store.any (fun c => c.date == d)

/-- Errors of the completion transaction coordinator (status-400/404 JSON
responses in the routes). -/
inductive HabitError where
  | alreadyCompletedToday
  | insufficientCredits
  | noCompletionToday
deriving Repr, DecidableEq

/-- The `newStreak` computation of the complete route (`POST`):
with a credit the streak is held constant; a genuine completion increments
it when `lastCompletedAt` is yesterday, keeps it when `lastCompletedAt` is
today, and otherwise restarts at 1. -/
def completeNewStreak (today : Int) (useCredit : Bool) (h : Habit) : Nat :=
  if useCredit = true then h.currentStreak
  else if h.lastCompletedAt = some (today - 1) then h.currentStreak + 1
  else if h.lastCompletedAt = some today then h.currentStreak
  else 1

/-- The `newCredits` computation of the complete route: spend 1 on a skip,
then add the milestone bonus only for a genuine completion that landed
exactly on a milestone day. -/
def completeNewCredits (useCredit : Bool) (h : Habit) (newStreak : Nat) : Nat :=
  let base := if useCredit = true then h.currentCredits - 1 else h.currentCredits
  match checkMilestoneReached newStreak with
  | some m => if useCredit = true then base else base + m.bonusCredits
  | none => base

/-- The `prisma.habit.update` data of the complete route's transaction. -/
def completeUpdatedHabit (today : Int) (useCredit : Bool) (h : Habit) : Habit :=
  let newStreak := completeNewStreak today useCredit h
  { h with
    currentStreak := newStreak
    longestStreak := max h.longestStreak newStreak
    lastCompletedAt := some today
    currentCredits := completeNewCredits useCredit h newStreak }

/-- `POST /api/habits/[id]/complete`: guard on an existing completion for
today, guard on credits for a skip, then atomically create the completion
row and update the habit; returns the updated state together with the
`milestoneReached` descriptor of the response body. -/
def completeHabit (today : Int) (useCredit : Bool) (s : State) :
    Except HabitError (State × Option MilestoneConfig) :=
  if (findCompletion s.store today).isSome then
    Except.error HabitError.alreadyCompletedToday
  else if useCredit = true ∧ s.habit.currentCredits < 1 then
    Except.error HabitError.insufficientCredits
  else
    Except.ok
      ({ habit := completeUpdatedHabit today useCredit s.habit
         store := ⟨today, useCredit⟩ :: s.store },
       checkMilestoneReached (completeNewStreak today useCredit s.habit))

/-- `DELETE /api/habits/[id]/complete` (undo): requires a completion for
today; deletes it, decrements the streak (floored at 0 by `Nat`
subtraction, as `Math.max(0, currentStreak - 1)`), restores 1 credit only
when the deleted completion was a skip, and nulls `lastCompletedAt`. -/
def undoCompletion (today : Int) (s : State) : Except HabitError State :=
  match findCompletion s.store today with
  | none => Except.error HabitError.noCompletionToday
  | some c =>
    Except.ok
      { habit := { s.habit with
          currentStreak := s.habit.currentStreak - 1
          currentCredits :=
            if c.skipped then s.habit.currentCredits + 1 else s.habit.currentCredits
          lastCompletedAt := none }
        store := s.store.eraseP (fun c2 => c2.date == today) }

/-- The shared 365-iteration streak loop of the backfill and recalculate
routes, recursing on the remaining iteration budget: while a completion
exists for `checkDate`, count it and step one day back; stop at the first
gap or when the budget runs out. -/
def streakWalk (store : List Completion) : Nat → Int → Nat
  | 0, _ => 0
  | fuel + 1, checkDate =>
    if hasCompletionOn store checkDate then streakWalk store fuel (checkDate - 1) + 1
    else 0

/-- `computeCurrentStreak`: the loop `for (let i = 0; i < 365; i++)`
starting at `today`. -/
def computeCurrentStreak (today : Int) (store : List Completion) : Nat :=
  streakWalk store 365 today

/-- `allCompletions[0]?.date || null` where `allCompletions` is ordered by
date descending: the most recent completion day, or `null` when none. -/
def latestCompletionDate : List Completion → Option Int
  | [] => none
  | c :: rest =>
    match latestCompletionDate rest with
    | none => some c.date
    | some d => some (max c.date d)

/-- The insertion loop of the backfill-add route: skip future dates, skip
dates already recorded, create a genuine (`skipped = false`) completion for
the rest. -/
def backfillInsert (today : Int) (dates : List Int) (store : List Completion) :
    List Completion :=
  dates.foldl
    (fun st d =>
      if today < d then st
      else if hasCompletionOn st d then st
      else ⟨d, false⟩ :: st)
    store

/-- `POST` of the backfill route: insert the requested dates, then fully
recompute the streak, reconcile credits by the monotonic `max` policy,
raise `longestStreak` if exceeded, and reset `lastCompletedAt` to the most
recent completion. -/
def backfillAdd (today : Int) (dates : List Int) (s : State) : State :=
  let store := backfillInsert today dates s.store
  let currentStreak := computeCurrentStreak today store
  { habit := { s.habit with
      currentStreak := currentStreak
      longestStreak := max s.habit.longestStreak currentStreak
      currentCredits := max s.habit.currentCredits (creditsFromMilestones currentStreak)
      lastCompletedAt := latestCompletionDate store }
    store := store }

/-- `DELETE` of the backfill route: `deleteMany` the completions for the
given date, recompute the streak, keep credits and `longestStreak`
untouched, and reset `lastCompletedAt` to the most recent remaining
completion. -/
def backfillRemove (today : Int) (date : Int) (s : State) : State :=
  let store := s.store.filter (fun c => !(c.date == date))
  let currentStreak := computeCurrentStreak today store
  { habit := { s.habit with
      currentStreak := currentStreak
      lastCompletedAt := latestCompletionDate store }
    store := store }

/-- `POST` of the recalculate route: recompute the streak from the store,
reconcile credits monotonically, raise `longestStreak` if exceeded, reset
`lastCompletedAt` to the most recent completion. -/
def recalculate (today : Int) (s : State) : State :=
  let currentStreak := computeCurrentStreak today s.store
  { s with habit := { s.habit with
      currentStreak := currentStreak
      longestStreak := max s.habit.longestStreak currentStreak
      currentCredits := max s.habit.currentCredits (creditsFromMilestones currentStreak)
      lastCompletedAt := latestCompletionDate s.store } }

/-- `checkAndResetStreakIfNeeded`: no-op when the streak is 0, when a
completion exists for today or yesterday, or when `lastCompletedAt` is
yesterday or later; otherwise zero `currentStreak` and `completionCount`. -/
def checkAndResetStreakIfNeeded (today : Int) (s : State) : State :=
  if s.habit.currentStreak = 0 then s
  else if (findCompletion s.store today).isSome then s
  else if (findCompletion s.store (today - 1)).isSome then s
  else
    match s.habit.lastCompletedAt with
    | some d =>
      if today - 1 ≤ d then s
      else { s with habit := { s.habit with currentStreak := 0, completionCount := 0 } }
    | none => { s with habit := { s.habit with currentStreak := 0, completionCount := 0 } }

/-- `checkAndResetAllStreaks`, restricted to one habit: the query filters
on `isArchived: false` and `currentStreak > 0`, then runs the per-habit
check. -/
def sweepLapsedStreaks (today : Int) (s : State) : State :=
  if s.habit.isArchived = true then s
  else if s.habit.currentStreak = 0 then s
  else checkAndResetStreakIfNeeded today s

/-- The operation alphabet of the transaction coordinator plus the lapse
sweeper, used to state invariants over operation sequences. -/
inductive HabitOp where
  | complete (useCredit : Bool)
  | undo
  | add (dates : List Int)
  | remove (date : Int)
  | recalc
  | sweep
deriving Repr, DecidableEq

/-- Apply one operation to the persisted state; a failing complete/undo
returns an error response before any write, so it leaves the state
unchanged. -/
def applyOp (today : Int) (s : State) : HabitOp → State
  | HabitOp.complete u =>
    match completeHabit today u s with
    | Except.ok (s1, _) => s1
    | Except.error _ => s
  | HabitOp.undo =>
    match undoCompletion today s with
    | Except.ok s1 => s1
    | Except.error _ => s
  | HabitOp.add ds => backfillAdd today ds s
  | HabitOp.remove d => backfillRemove today d s
  | HabitOp.recalc => recalculate today s
  | HabitOp.sweep => sweepLapsedStreaks today s

/-- Discriminator for the backfill-remove operation. -/
def HabitOp.isRemove : HabitOp → Bool
  | HabitOp.remove _ => true
  | _ => false

/-- The property "this optional day is the calendar day of the most recent
completion record, or null when no record remains". -/
def isMostRecentCompletionDay (o : Option Int) (store : List Completion) : Prop :=
  match o with
  | none => store = []
  | some d => (∃ c ∈ store, c.date = d) ∧ ∀ c ∈ store, c.date ≤ d

/-- A freshly created habit: streak 0, credits 0, no completions. -/
def freshState : State :=
  { habit := { currentStreak := 0, longestStreak := 0, currentCredits := 0,
               lastCompletedAt := none, completionCount := 0, isArchived := false },
    store := [] }

/-- A habit about to hit the 7-day milestone (evaluated at `today = 10`):
streak 6, last completed yesterday, no credits. -/
def exMilestoneState : State :=
  { habit := { currentStreak := 6, longestStreak := 6, currentCredits := 0,
               lastCompletedAt := some 9, completionCount := 6, isArchived := false },
    store := [⟨9, false⟩] }

/-- A habit holding one credit (evaluated at `today = 10`): streak 5, last
completed yesterday. -/
def exCreditState : State :=
  { habit := { currentStreak := 5, longestStreak := 5, currentCredits := 1,
               lastCompletedAt := some 9, completionCount := 5, isArchived := false },
    store := [⟨9, false⟩] }

/-- A lapsed habit (evaluated at `today = 10`): streak 7, one credit, last
completed three days ago, no completion today or yesterday. -/
def exLapsedState : State :=
  { habit := { currentStreak := 7, longestStreak := 7, currentCredits := 1,
               lastCompletedAt := some 7, completionCount := 7, isArchived := false },
    store := [⟨7, false⟩] }

/-- When no completion exists for today and (for a skip) at least one
credit is available, the complete route succeeds and commits exactly the
transaction of its happy path. -/
theorem completeHabit_ok (today : Int) (u : Bool) (s : State)
    (hno : findCompletion s.store today = none)
    (hcred : u = true → 1 ≤ s.habit.currentCredits) :
    completeHabit today u s =
      Except.ok
        ({ habit := completeUpdatedHabit today u s.habit
           store := ⟨today, u⟩ :: s.store },
         checkMilestoneReached (completeNewStreak today u s.habit)) := by
  have hguard : ¬(u = true ∧ s.habit.currentCredits < 1) := by
    rintro ⟨hu, hlt⟩
    have := hcred hu
    omega
  simp only [completeHabit, hno, Option.isSome_none, Bool.false_eq_true, if_false,
    if_neg hguard]

/-- When a completion exists for today, the undo route succeeds and commits
exactly the transaction of its happy path. -/
theorem undoCompletion_ok (today : Int) (s : State) (c : Completion)
    (hc : findCompletion s.store today = some c) :
    undoCompletion today s =
      Except.ok
        { habit := { s.habit with
            currentStreak := s.habit.currentStreak - 1
            currentCredits :=
              if c.skipped then s.habit.currentCredits + 1 else s.habit.currentCredits
            lastCompletedAt := none }
          store := s.store.eraseP (fun c2 => c2.date == today) } := by
  unfold undoCompletion
  rw [hc]

/-- The streak walk never exceeds its iteration budget. -/
theorem streakWalk_le (store : List Completion) :
    ∀ (fuel : Nat) (d : Int), streakWalk store fuel d ≤ fuel := by
  intro fuel
  induction fuel with
  | zero => intro d; simp [streakWalk]
  | succ n ih =>
    intro d
    rw [streakWalk]
    split
    · have := ih (d - 1)
      omega
    · omega

/-- Every day inside the computed streak carries a completion record. -/
theorem streakWalk_has (store : List Completion) :
    ∀ (fuel : Nat) (d : Int) (k : Nat), k < streakWalk store fuel d →
      hasCompletionOn store (d - k) = true := by
  intro fuel
  induction fuel with
  | zero => intro d k hk; simp [streakWalk] at hk
  | succ n ih =>
    intro d k hk
    rw [streakWalk] at hk
    by_cases h : hasCompletionOn store d = true
    · rw [if_pos h] at hk
      cases k with
      | zero => simpa using h
      | succ j =>
        have hj := ih (d - 1) j (by omega)
        have heq : d - 1 - (j : Int) = d - ((j + 1 : Nat) : Int) := by push_cast; ring
        rwa [heq] at hj
    · rw [if_neg h] at hk
      omega

/-- Unless the iteration budget was exhausted, the day right after the
computed streak has no completion record (the walk stopped at a gap). -/
theorem streakWalk_gap (store : List Completion) :
    ∀ (fuel : Nat) (d : Int), streakWalk store fuel d < fuel →
      hasCompletionOn store (d - (streakWalk store fuel d : Int)) = false := by
  intro fuel
  induction fuel with
  | zero => intro d h; omega
  | succ n ih =>
    intro d h
    rw [streakWalk] at h ⊢
    by_cases hc : hasCompletionOn store d = true
    · rw [if_pos hc] at h ⊢
      have hlt : streakWalk store n (d - 1) < n := by omega
      have := ih (d - 1) hlt
      have heq : d - 1 - (streakWalk store n (d - 1) : Int) =
          d - ((streakWalk store n (d - 1) + 1 : Nat) : Int) := by push_cast; ring
      rwa [heq] at this
    · rw [if_neg hc] at h ⊢
      simpa using eq_false_of_ne_true hc

/-- `latestCompletionDate` is exactly the most recent completion day. -/
theorem latestCompletionDate_spec (store : List Completion) :
    isMostRecentCompletionDay (latestCompletionDate store) store := by
  induction store with
  | nil => simp [latestCompletionDate, isMostRecentCompletionDay]
  | cons c rest ih =>
    rw [latestCompletionDate]
    cases hrest : latestCompletionDate rest with
    | none =>
      rw [hrest] at ih
      simp only [isMostRecentCompletionDay] at ih ⊢
      subst ih
      exact ⟨⟨c, by simp⟩, by simp⟩
    | some d =>
      rw [hrest] at ih
      simp only [isMostRecentCompletionDay] at ih ⊢
      obtain ⟨⟨c1, hc1, hc1d⟩, hub⟩ := ih
      constructor
      · rcases le_total c.date d with hle | hle
        · exact ⟨c1, by simp [hc1], by rw [hc1d]; exact (max_eq_right hle).symm⟩
        · exact ⟨c, by simp, (max_eq_left hle).symm⟩
      · intro c2 hc2
        rcases List.mem_cons.mp hc2 with rfl | hmem
        · exact le_max_left _ _
        · exact le_trans (hub c2 hmem) (le_max_right _ _)

/-- The habit written by a successful complete satisfies
`longestStreak ≥ currentStreak`. -/
theorem completeUpdatedHabit_inv (today : Int) (u : Bool) (h : Habit) :
    (completeUpdatedHabit today u h).currentStreak ≤
      (completeUpdatedHabit today u h).longestStreak := by
  simp only [completeUpdatedHabit]
  exact le_max_right _ _

/-- Every operation other than backfill-remove preserves the
`longestStreak ≥ currentStreak` invariant. -/
theorem applyOp_preserves_inv (today : Int) (s : State) (op : HabitOp)
    (hinv : s.habit.currentStreak ≤ s.habit.longestStreak)
    (hop : op.isRemove = false) :
    (applyOp today s op).habit.currentStreak ≤
      (applyOp today s op).habit.longestStreak := by
  cases op with
  | complete u =>
    simp only [applyOp]
    cases hc : completeHabit today u s with
    | error e => exact hinv
    | ok p =>
      obtain ⟨s1, mil⟩ := p
      unfold completeHabit at hc
      split_ifs at hc
      simp only [Except.ok.injEq, Prod.mk.injEq] at hc
      obtain ⟨h1, h2⟩ := hc
      show s1.habit.currentStreak ≤ s1.habit.longestStreak
      rw [← h1]
      exact completeUpdatedHabit_inv today u s.habit
  | undo =>
    simp only [applyOp]
    cases hc : undoCompletion today s with
    | error e => exact hinv
    | ok s1 =>
      unfold undoCompletion at hc
      cases hf : findCompletion s.store today with
      | none => rw [hf] at hc; cases hc
      | some c =>
        rw [hf] at hc
        simp only [Except.ok.injEq] at hc
        rw [← hc]
        exact le_trans (Nat.sub_le _ _) hinv
  | add ds =>
    simp only [applyOp, backfillAdd]
    exact le_max_right _ _
  | remove d => simp [HabitOp.isRemove] at hop
  | recalc =>
    simp only [applyOp, recalculate]
    exact le_max_right _ _
  | sweep =>
    simp only [applyOp, sweepLapsedStreaks]
    split_ifs with h1 h2
    · exact hinv
    · exact hinv
    · unfold checkAndResetStreakIfNeeded
      split_ifs with h3 h4
      · exact hinv
      · exact hinv
      · cases hl : s.habit.lastCompletedAt with
        | none => exact Nat.zero_le _
        | some d =>
          dsimp only
          split_ifs with h6
          · exact hinv
          · exact Nat.zero_le _

/-- Folding a remove-free operation sequence preserves the
`longestStreak ≥ currentStreak` invariant. -/
theorem foldl_applyOp_inv (today : Int) (ops : List HabitOp) :
    ∀ s : State, s.habit.currentStreak ≤ s.habit.longestStreak →
      (∀ op ∈ ops, op.isRemove = false) →
      (ops.foldl (applyOp today) s).habit.currentStreak ≤
        (ops.foldl (applyOp today) s).habit.longestStreak := by
  induction ops with
  | nil => intro s hinv _; simpa using hinv
  | cons op rest ih =>
    intro s hinv hops
    rw [List.foldl_cons]
    exact ih (applyOp today s op)
      (applyOp_preserves_inv today s op hinv (hops op (by simp)))
      (fun o ho => hops o (by simp [ho]))

/-- C1: for every habit with no completion recorded for today,
`completeHabit(useCredit=false)` succeeds; the new streak is
`currentStreak + 1` when `lastCompletedAt` is yesterday, unchanged when it
is today, and 1 otherwise; the milestone bonus is added to
`currentCredits` and the milestone descriptor returned exactly when the
new streak equals a milestone threshold; `longestStreak` becomes
`max(longestStreak, newStreak)` and `lastCompletedAt` becomes today. -/
theorem complete_without_credit_spec (today : Int) (s : State)
    (hno : findCompletion s.store today = none) :
    ∃ s1 mil, completeHabit today false s = Except.ok (s1, mil) ∧
      (s.habit.lastCompletedAt = some (today - 1) →
        s1.habit.currentStreak = s.habit.currentStreak + 1) ∧
      (s.habit.lastCompletedAt ≠ some (today - 1) →
        s.habit.lastCompletedAt = some today →
        s1.habit.currentStreak = s.habit.currentStreak) ∧
      (s.habit.lastCompletedAt ≠ some (today - 1) →
        s.habit.lastCompletedAt ≠ some today →
        s1.habit.currentStreak = 1) ∧
      mil = checkMilestoneReached s1.habit.currentStreak ∧
      (mil.isSome = MILESTONES.contains s1.habit.currentStreak) ∧
      (∀ m, checkMilestoneReached s1.habit.currentStreak = some m →
        s1.habit.currentCredits = s.habit.currentCredits + m.bonusCredits) ∧
      (checkMilestoneReached s1.habit.currentStreak = none →
        s1.habit.currentCredits = s.habit.currentCredits) ∧
      s1.habit.longestStreak = max s.habit.longestStreak s1.habit.currentStreak ∧
      s1.habit.lastCompletedAt = some today := by
  refine ⟨_, _, completeHabit_ok today false s hno (by simp), ?_, ?_, ?_, ?_, ?_, ?_, ?_, ?_, ?_⟩
  · intro hy
    simp [completeUpdatedHabit, completeNewStreak, hy]
  · intro hny ht
    simp [completeUpdatedHabit, completeNewStreak, hny, ht]
    omega
  · intro hny hnt
    simp [completeUpdatedHabit, completeNewStreak, hny, hnt]
  · rfl
  · show (checkMilestoneReached (completeNewStreak today false s.habit)).isSome =
      MILESTONES.contains (completeNewStreak today false s.habit)
    cases hcon : MILESTONES.contains (completeNewStreak today false s.habit) <;>
      simp [checkMilestoneReached, hcon] <;> simpa using hcon
  · intro m hm
    show completeNewCredits false s.habit (completeNewStreak today false s.habit) =
      s.habit.currentCredits + m.bonusCredits
    have hm2 : checkMilestoneReached (completeNewStreak today false s.habit) = some m := hm
    simp [completeNewCredits, hm2]
  · intro hm
    show completeNewCredits false s.habit (completeNewStreak today false s.habit) =
      s.habit.currentCredits
    have hm2 : checkMilestoneReached (completeNewStreak today false s.habit) = none := hm
    simp [completeNewCredits, hm2]
  · rfl
  · rfl

/-- C1 witness: the streak-6 scenario at `today = 10` hits the 7-day
milestone. -/
theorem complete_without_credit_spec_witness :
    findCompletion exMilestoneState.store 10 = none ∧
    (∃ s1 mil, completeHabit 10 false exMilestoneState = Except.ok (s1, mil) ∧
      (exMilestoneState.habit.lastCompletedAt = some (10 - 1) →
        s1.habit.currentStreak = exMilestoneState.habit.currentStreak + 1) ∧
      (exMilestoneState.habit.lastCompletedAt ≠ some (10 - 1) →
        exMilestoneState.habit.lastCompletedAt = some 10 →
        s1.habit.currentStreak = exMilestoneState.habit.currentStreak) ∧
      (exMilestoneState.habit.lastCompletedAt ≠ some (10 - 1) →
        exMilestoneState.habit.lastCompletedAt ≠ some 10 →
        s1.habit.currentStreak = 1) ∧
      mil = checkMilestoneReached s1.habit.currentStreak ∧
      (mil.isSome = MILESTONES.contains s1.habit.currentStreak) ∧
      (∀ m, checkMilestoneReached s1.habit.currentStreak = some m →
        s1.habit.currentCredits = exMilestoneState.habit.currentCredits + m.bonusCredits) ∧
      (checkMilestoneReached s1.habit.currentStreak = none →
        s1.habit.currentCredits = exMilestoneState.habit.currentCredits) ∧
      s1.habit.longestStreak =
        max exMilestoneState.habit.longestStreak s1.habit.currentStreak ∧
      s1.habit.lastCompletedAt = some 10) :=
  ⟨by decide, complete_without_credit_spec 10 exMilestoneState (by decide)⟩

/-- C2 counterexample: on the streak-6 habit with 0 credits (today = 10),
complete crosses the 7-day milestone (earning 1 credit) and the immediate
undo restores the streak but leaves `currentCredits = 1`, not the
pre-Complete value 0 — undo never subtracts a milestone bonus. -/
theorem complete_undo_conservation_cex :
    ((completeHabit 10 false exMilestoneState).toOption.bind
        (fun p => (undoCompletion 10 p.1).toOption)).map
      (fun s2 => (s2.habit.currentStreak, s2.habit.currentCredits)) = some (6, 1) ∧
    exMilestoneState.habit.currentStreak = 6 ∧
    exMilestoneState.habit.currentCredits = 0 ∧
    checkMilestoneReached 7 = some (MILESTONE_CONFIGS 7) := by decide

/-- C2 (amended): for a habit with no completion today and
`lastCompletedAt` equal to yesterday, complete followed by undo restores
`currentStreak` exactly for a genuine completion, and restores
`currentCredits` exactly when no milestone was crossed; when the new
streak hit a milestone, undo leaves the bonus in place, so credits end
higher by exactly that milestone's `bonusCredits`. For a credit skip the
round trip restores `currentCredits` exactly but ends with
`currentStreak` decremented by one. -/
theorem complete_undo_conservation (today : Int) (s : State) (u : Bool)
    (hno : findCompletion s.store today = none)
    (hy : s.habit.lastCompletedAt = some (today - 1))
    (hcred : u = true → 1 ≤ s.habit.currentCredits) :
    ∃ s1 mil s2,
      completeHabit today u s = Except.ok (s1, mil) ∧
      undoCompletion today s1 = Except.ok s2 ∧
      (u = false →
        s2.habit.currentStreak = s.habit.currentStreak ∧
        s2.habit.currentCredits = s.habit.currentCredits +
          (checkMilestoneReached (s.habit.currentStreak + 1)).elim 0
            (fun m => m.bonusCredits)) ∧
      (u = true →
        s2.habit.currentStreak = s.habit.currentStreak - 1 ∧
        s2.habit.currentCredits = s.habit.currentCredits) := by
  have hok := completeHabit_ok today u s hno hcred
  have hfind : findCompletion ((⟨today, u⟩ : Completion) :: s.store) today =
      some ⟨today, u⟩ := by
    simp [findCompletion, List.find?]
  have hundo := undoCompletion_ok today
    { habit := completeUpdatedHabit today u s.habit, store := ⟨today, u⟩ :: s.store }
    ⟨today, u⟩ hfind
  refine ⟨_, _, _, hok, hundo, ?_, ?_⟩
  · rintro rfl
    have hns : completeNewStreak today false s.habit = s.habit.currentStreak + 1 := by
      simp [completeNewStreak, hy]
    constructor
    · show (completeUpdatedHabit today false s.habit).currentStreak - 1 =
        s.habit.currentStreak
      show completeNewStreak today false s.habit - 1 = s.habit.currentStreak
      rw [hns]
      omega
    · show (if (⟨today, false⟩ : Completion).skipped then
          (completeUpdatedHabit today false s.habit).currentCredits + 1
        else (completeUpdatedHabit today false s.habit).currentCredits) =
          s.habit.currentCredits +
            (checkMilestoneReached (s.habit.currentStreak + 1)).elim 0
              (fun m => m.bonusCredits)
      show completeNewCredits false s.habit (completeNewStreak today false s.habit) =
        s.habit.currentCredits +
          (checkMilestoneReached (s.habit.currentStreak + 1)).elim 0
            (fun m => m.bonusCredits)
      rw [hns]
      cases hm : checkMilestoneReached (s.habit.currentStreak + 1) <;>
        simp [completeNewCredits, hm]
  · rintro rfl
    have h1 := hcred rfl
    constructor
    · rfl
    · show (if (⟨today, true⟩ : Completion).skipped then
          (completeUpdatedHabit today true s.habit).currentCredits + 1
        else (completeUpdatedHabit today true s.habit).currentCredits) =
          s.habit.currentCredits
      show completeNewCredits true s.habit (completeNewStreak today true s.habit) + 1 =
        s.habit.currentCredits
      cases hm : checkMilestoneReached (completeNewStreak today true s.habit) <;>
        simp [completeNewCredits, hm] <;> omega

/-- C2 (amended) witness: the streak-6 milestone scenario at today = 10. -/
theorem complete_undo_conservation_witness :
    findCompletion exMilestoneState.store 10 = none ∧
    exMilestoneState.habit.lastCompletedAt = some (10 - 1) ∧
    (∃ s1 mil s2,
      completeHabit 10 false exMilestoneState = Except.ok (s1, mil) ∧
      undoCompletion 10 s1 = Except.ok s2 ∧
      (false = false →
        s2.habit.currentStreak = exMilestoneState.habit.currentStreak ∧
        s2.habit.currentCredits = exMilestoneState.habit.currentCredits +
          (checkMilestoneReached (exMilestoneState.habit.currentStreak + 1)).elim 0
            (fun m => m.bonusCredits)) ∧
      (false = true →
        s2.habit.currentStreak = exMilestoneState.habit.currentStreak - 1 ∧
        s2.habit.currentCredits = exMilestoneState.habit.currentCredits)) :=
  ⟨by decide, by decide,
    complete_undo_conservation 10 exMilestoneState false (by decide) (by decide) (by decide)⟩

/-- C3: `completeHabit(useCredit=true)` fails with `AlreadyCompletedToday`
when a completion exists for today, fails with `InsufficientCredits` when
there is none but `currentCredits < 1`, and otherwise succeeds, creating a
`skipped = true` completion for today, decrementing `currentCredits` by
exactly one, holding `currentStreak` constant and awarding no milestone
bonus. -/
theorem complete_with_credit_spec (today : Int) (s : State) :
    ((findCompletion s.store today).isSome →
      completeHabit today true s = Except.error HabitError.alreadyCompletedToday) ∧
    (findCompletion s.store today = none → s.habit.currentCredits < 1 →
      completeHabit today true s = Except.error HabitError.insufficientCredits) ∧
    (findCompletion s.store today = none → 1 ≤ s.habit.currentCredits →
      ∃ s1 mil, completeHabit today true s = Except.ok (s1, mil) ∧
        findCompletion s1.store today = some ⟨today, true⟩ ∧
        s1.habit.currentCredits + 1 = s.habit.currentCredits ∧
        s1.habit.currentStreak = s.habit.currentStreak) := by
  refine ⟨?_, ?_, ?_⟩
  · intro h
    simp [completeHabit, h]
  · intro hno hlt
    simp [completeHabit, hno, hlt]
  · intro hno hcred
    refine ⟨_, _, completeHabit_ok today true s hno (fun _ => hcred), ?_, ?_, ?_⟩
    · simp [findCompletion, List.find?]
    · show completeNewCredits true s.habit (completeNewStreak today true s.habit) + 1 =
        s.habit.currentCredits
      cases hm : checkMilestoneReached (completeNewStreak today true s.habit) <;>
        simp [completeNewCredits, hm] <;> omega
    · rfl

/-- C3 witness: the one-credit habit at today = 10 takes the success
branch of the skip specification. -/
theorem complete_with_credit_spec_witness :
    findCompletion exCreditState.store 10 = none ∧
    1 ≤ exCreditState.habit.currentCredits ∧
    (∃ s1 mil, completeHabit 10 true exCreditState = Except.ok (s1, mil) ∧
      findCompletion s1.store 10 = some ⟨10, true⟩ ∧
      s1.habit.currentCredits + 1 = exCreditState.habit.currentCredits ∧
      s1.habit.currentStreak = exCreditState.habit.currentStreak) :=
  ⟨by decide, by decide,
    (complete_with_credit_spec 10 exCreditState).2.2 (by decide) (by decide)⟩

/-- C4: for a non-archived habit with a positive streak, the lapse sweep
is a no-op when a completion exists for today, when one exists for
yesterday, or when `lastCompletedAt` is yesterday or later; otherwise it
zeroes `currentStreak` while leaving `longestStreak`, `currentCredits`
and the completion records untouched. -/
theorem sweep_lapsed_spec (today : Int) (s : State)
    (harch : s.habit.isArchived = false) (hpos : 0 < s.habit.currentStreak) :
    ((findCompletion s.store today).isSome → sweepLapsedStreaks today s = s) ∧
    ((findCompletion s.store (today - 1)).isSome → sweepLapsedStreaks today s = s) ∧
    (∀ d, s.habit.lastCompletedAt = some d → today - 1 ≤ d →
      sweepLapsedStreaks today s = s) ∧
    (findCompletion s.store today = none →
      findCompletion s.store (today - 1) = none →
      (∀ d, s.habit.lastCompletedAt = some d → d < today - 1) →
      (sweepLapsedStreaks today s).habit.currentStreak = 0 ∧
      (sweepLapsedStreaks today s).habit.longestStreak = s.habit.longestStreak ∧
      (sweepLapsedStreaks today s).habit.currentCredits = s.habit.currentCredits ∧
      (sweepLapsedStreaks today s).store = s.store) := by
  have hne : ¬ s.habit.currentStreak = 0 := by omega
  refine ⟨?_, ?_, ?_, ?_⟩
  · intro h
    simp [sweepLapsedStreaks, checkAndResetStreakIfNeeded, harch, hne, h]
  · intro h
    by_cases h0 : (findCompletion s.store today).isSome
    · simp [sweepLapsedStreaks, checkAndResetStreakIfNeeded, harch, hne, h0]
    · simp [sweepLapsedStreaks, checkAndResetStreakIfNeeded, harch, hne, h0, h]
  · intro d hd hle
    by_cases h0 : (findCompletion s.store today).isSome
    · simp [sweepLapsedStreaks, checkAndResetStreakIfNeeded, harch, hne, h0]
    · by_cases h1 : (findCompletion s.store (today - 1)).isSome
      · simp [sweepLapsedStreaks, checkAndResetStreakIfNeeded, harch, hne, h0, h1]
      · simp [sweepLapsedStreaks, checkAndResetStreakIfNeeded, harch, hne, h0, h1, hd, hle]
  · intro hn0 hn1 hlt
    cases hl : s.habit.lastCompletedAt with
    | none =>
      simp [sweepLapsedStreaks, checkAndResetStreakIfNeeded, harch, hne, hn0, hn1, hl]
    | some d =>
      have hdlt := hlt d hl
      have hnle : ¬ (today - 1 ≤ d) := by omega
      simp [sweepLapsedStreaks, checkAndResetStreakIfNeeded, harch, hne, hn0, hn1, hl, hnle]

/-- C4 witness: the lapsed habit (last completed three days before
today = 10) is reset to streak 0, keeping its credit and longest streak. -/
theorem sweep_lapsed_spec_witness :
    exLapsedState.habit.isArchived = false ∧
    0 < exLapsedState.habit.currentStreak ∧
    ((sweepLapsedStreaks 10 exLapsedState).habit.currentStreak = 0 ∧
     (sweepLapsedStreaks 10 exLapsedState).habit.longestStreak =
       exLapsedState.habit.longestStreak ∧
     (sweepLapsedStreaks 10 exLapsedState).habit.currentCredits =
       exLapsedState.habit.currentCredits ∧
     (sweepLapsedStreaks 10 exLapsedState).store = exLapsedState.store) :=
  ⟨by decide, by decide,
    (sweep_lapsed_spec 10 exLapsedState (by decide) (by decide)).2.2.2 (by decide) (by decide)
      (fun d hd => by simp [exLapsedState] at hd; omega)⟩

/-- C5: the shared streak recomputation (used verbatim by backfill add,
backfill remove and recalculate to set `currentStreak`) counts the
consecutive calendar days ending at today that each carry a completion
record (skipped records counting identically — date-only lookup), stops at
the first gap, and caps the lookback at 365 days so a longer run is
reported as 365. -/
theorem compute_streak_spec (today : Int) (store : List Completion) (dates : List Int)
    (d : Int) (s : State) :
    computeCurrentStreak today store ≤ 365 ∧
    (∀ k : Nat, k < computeCurrentStreak today store →
      hasCompletionOn store (today - (k : Int)) = true) ∧
    (computeCurrentStreak today store < 365 →
      hasCompletionOn store (today - (computeCurrentStreak today store : Int)) = false) ∧
    (backfillAdd today dates s).habit.currentStreak =
      computeCurrentStreak today (backfillAdd today dates s).store ∧
    (backfillRemove today d s).habit.currentStreak =
      computeCurrentStreak today (backfillRemove today d s).store ∧
    (recalculate today s).habit.currentStreak =
      computeCurrentStreak today (recalculate today s).store :=
  ⟨streakWalk_le store 365 today, fun k hk => streakWalk_has store 365 today k hk,
    fun h => streakWalk_gap store 365 today h, rfl, rfl, rfl⟩

/-- C5 witness: backfilling today-2, today-1 and today into an empty habit
yields a recomputed streak of exactly 3. -/
theorem compute_streak_spec_witness :
    computeCurrentStreak 10 (backfillAdd 10 [8, 9, 10] freshState).store = 3 ∧
    (backfillAdd 10 [8, 9, 10] freshState).habit.currentStreak = 3 ∧
    computeCurrentStreak 10 (backfillAdd 10 [8, 9, 10] freshState).store ≤ 365 :=
  ⟨by decide, by decide,
    (compute_streak_spec 10 (backfillAdd 10 [8, 9, 10] freshState).store [] 0 freshState).1⟩

/-- C6 counterexample: starting from a fresh habit (where the invariant
holds), backfilling yesterday, completing today, and then removing the
unrelated backfilled day leaves `currentStreak = 2` above
`longestStreak = 1`: backfill-remove recomputes the streak but never
raises `longestStreak`. -/
theorem longest_ge_current_cex :
    freshState.habit.currentStreak ≤ freshState.habit.longestStreak ∧
    ([HabitOp.add [3, 9], HabitOp.complete false, HabitOp.remove 3].foldl
        (applyOp 10) freshState).habit.currentStreak = 2 ∧
    ([HabitOp.add [3, 9], HabitOp.complete false, HabitOp.remove 3].foldl
        (applyOp 10) freshState).habit.longestStreak = 1 := by decide

/-- C6 (amended): starting from a state with
`longestStreak ≥ currentStreak`, every sequence of completeHabit,
undoCompletion, backfillAdd, recalculate and sweepLapsedStreaks operations
(backfill-remove excluded) preserves the invariant after each step. -/
theorem longest_ge_current_inv (today : Int) (ops : List HabitOp) (s : State)
    (hinv : s.habit.currentStreak ≤ s.habit.longestStreak)
    (hops : ∀ op ∈ ops, op.isRemove = false) :
    (ops.foldl (applyOp today) s).habit.currentStreak ≤
      (ops.foldl (applyOp today) s).habit.longestStreak :=
  foldl_applyOp_inv today ops s hinv hops

/-- C6 (amended) witness: a remove-free sequence from a fresh habit. -/
theorem longest_ge_current_inv_witness :
    freshState.habit.currentStreak ≤ freshState.habit.longestStreak ∧
    (∀ op ∈ ([HabitOp.complete false, HabitOp.undo, HabitOp.add [9, 10],
        HabitOp.recalc, HabitOp.sweep] : List HabitOp), op.isRemove = false) ∧
    ([HabitOp.complete false, HabitOp.undo, HabitOp.add [9, 10],
        HabitOp.recalc, HabitOp.sweep].foldl (applyOp 10) freshState).habit.currentStreak ≤
      ([HabitOp.complete false, HabitOp.undo, HabitOp.add [9, 10],
        HabitOp.recalc, HabitOp.sweep].foldl (applyOp 10) freshState).habit.longestStreak :=
  ⟨by decide, by decide,
    longest_ge_current_inv 10
      [HabitOp.complete false, HabitOp.undo, HabitOp.add [9, 10],
        HabitOp.recalc, HabitOp.sweep] freshState (by decide) (by decide)⟩

/-- C7 counterexample: a successful skip at today = 10 moves
`lastCompletedAt` from yesterday to today — the complete route writes
`lastCompletedAt: today` unconditionally, also for skips. -/
theorem skip_lastCompletedAt_cex :
    exCreditState.habit.lastCompletedAt = some 9 ∧
    (completeHabit 10 true exCreditState).toOption.map
      (fun p => p.1.habit.lastCompletedAt) = some (some 10) := by decide

/-- C7 (amended): a successful `completeHabit(useCredit=true)` sets
`lastCompletedAt` to today, exactly like a genuine completion. -/
theorem skip_sets_lastCompletedAt (today : Int) (s : State)
    (hno : findCompletion s.store today = none)
    (hcred : 1 ≤ s.habit.currentCredits) :
    ∃ s1 mil, completeHabit today true s = Except.ok (s1, mil) ∧
      s1.habit.lastCompletedAt = some today :=
  ⟨_, _, completeHabit_ok today true s hno (fun _ => hcred), rfl⟩

/-- C7 (amended) witness: the one-credit habit at today = 10. -/
theorem skip_sets_lastCompletedAt_witness :
    findCompletion exCreditState.store 10 = none ∧
    1 ≤ exCreditState.habit.currentCredits ∧
    (∃ s1 mil, completeHabit 10 true exCreditState = Except.ok (s1, mil) ∧
      s1.habit.lastCompletedAt = some 10) :=
  ⟨by decide, by decide, skip_sets_lastCompletedAt 10 exCreditState (by decide) (by decide)⟩

/-- Backfill-remove never touches `currentCredits`, over any sequence. -/
theorem foldl_backfillRemove_credits (today : Int) (ds : List Int) :
    ∀ s : State,
      (ds.foldl (fun st dd => backfillRemove today dd st) s).habit.currentCredits =
        s.habit.currentCredits := by
  induction ds with
  | nil => intro s; rfl
  | cons dd rest ih =>
    intro s
    rw [List.foldl_cons, ih]
    rfl

/-- C8: backfill-remove deletes the completions for the given date,
recomputes `currentStreak` by full recalculation, and leaves
`currentCredits` unchanged; hence over any sequence of removes the credit
balance never decreases. -/
theorem backfill_remove_monotonic_credits (today : Int) (s : State) (ds : List Int)
    (d : Int) :
    (backfillRemove today d s).store = s.store.filter (fun c => !(c.date == d)) ∧
    (backfillRemove today d s).habit.currentStreak =
      computeCurrentStreak today (backfillRemove today d s).store ∧
    (backfillRemove today d s).habit.currentCredits = s.habit.currentCredits ∧
    (ds.foldl (fun st dd => backfillRemove today dd st) s).habit.currentCredits =
      s.habit.currentCredits ∧
    s.habit.currentCredits ≤
      (ds.foldl (fun st dd => backfillRemove today dd st) s).habit.currentCredits :=
  ⟨rfl, rfl, rfl, foldl_backfillRemove_credits today ds s,
    le_of_eq (foldl_backfillRemove_credits today ds s).symm⟩

/-- C9: recalculate is idempotent — a second recalculate with no
intervening writes returns the same habit snapshot (and store). -/
theorem recalculate_idempotent (today : Int) (s : State) :
    recalculate today (recalculate today s) = recalculate today s := by
  obtain ⟨⟨cs, ls, cc, lca, cnt, arch⟩, store⟩ := s
  simp [recalculate, max_assoc]

/-- C10: after backfill-add, backfill-remove and recalculate, the habit's
`lastCompletedAt` is the calendar day of the most recent remaining
completion record (skipped or genuine), or null when none remain — in
particular these operations repopulate a `lastCompletedAt` an earlier undo
had nulled. -/
theorem ops_set_lastCompletedAt_to_latest (today d : Int) (dates : List Int) (s : State) :
    isMostRecentCompletionDay (backfillAdd today dates s).habit.lastCompletedAt
      (backfillAdd today dates s).store ∧
    isMostRecentCompletionDay (backfillRemove today d s).habit.lastCompletedAt
      (backfillRemove today d s).store ∧
    isMostRecentCompletionDay (recalculate today s).habit.lastCompletedAt
      (recalculate today s).store :=
  ⟨latestCompletionDate_spec _, latestCompletionDate_spec _, latestCompletionDate_spec _⟩

end Momentum
